import Mathlib

/-!
Shallow embedding of `lbry/stream/stream_manager.py` (the `StreamManager`
class) together with proofs about its behaviour.  Python dictionaries are
modelled as insertion-ordered association lists, the cooperative scheduler by
explicit sequential state passing, and the external collaborators (blob
manager, storage, descriptor recovery) by an environment of oracles.
-/

namespace Lbry

/-- One blob record of a stream descriptor.  Only the blob hash is relevant to
the manager's code; the last entry of a descriptor's blob list is the
terminator. -/
structure BlobInfo where
  blob_hash : String
  deriving DecidableEq

/-- A stream descriptor: manifest hash, stream hash and the ordered blob
records (the last being the terminator). -/
structure StreamDescriptor where
  sd_hash : String
  stream_hash : String
  blobs : List BlobInfo
  deriving DecidableEq

/-- The runtime state of a `ManagedStream` as far as `StreamManager` reads or
writes it: identity, descriptor, persisted status, the `blobs_completed` and
`fully_reflected` flags, and the claim info applied by `set_claim` (claim info
is abstracted to a numeric identifier). -/
structure ManagedStream where
  sd_hash : String
  stream_hash : String
  descriptor : StreamDescriptor
  status : String
  blobs_completed : Bool
  fully_reflected : Bool
  claim : Option Nat
  deriving DecidableEq

/-- `ManagedStream.set_claim`: records the claim info on the stream. -/
def set_claim (s : ManagedStream) (claim_info : Nat) : ManagedStream :=
  { s with claim := some claim_info }

/-- Python exceptions that the modelled code can raise. -/
inductive PyErr where
  | typeError
  | nameError (n : String)
  | keyError (k : String)
  deriving DecidableEq

/-- Lookup in a Python dict modelled as an association list (first match). -/
def dictLookup {α : Type} : List (String × α) → String → Option α
  | [], _ => none
  | p :: rest, k => if p.1 = k then some p.2 else dictLookup rest k

/-- Python `k in d`. -/
def dictContains {α : Type} (l : List (String × α)) (k : String) : Bool :=
  (dictLookup l k).isSome

/-- Python `d[k] = v`: replace the value in place when the key is present,
append otherwise. -/
def dictInsert {α : Type} : List (String × α) → String → α → List (String × α)
  | [], k, v => [(k, v)]
  | p :: rest, k, v => if p.1 = k then (k, v) :: rest else p :: dictInsert rest k v

/-- Python `del d[k]` / `d.pop(k)` for the keys of a dict (keys are unique in a
dict, so removing every pair with the key is the same operation). -/
def dictErase {α : Type} : List (String × α) → String → List (String × α)
  | [], _ => []
  | p :: rest, k => if p.1 = k then dictErase rest k else p :: dictErase rest k

theorem dictLookup_insert_self {α : Type} (l : List (String × α)) (k : String) (v : α) :
    dictLookup (dictInsert l k v) k = some v := by
  induction l with
  | nil => simp [dictInsert, dictLookup]
  | cons p rest ih =>
    by_cases h : p.1 = k
    · simp [dictInsert, dictLookup, h]
    · simp [dictInsert, dictLookup, h, ih]

theorem dictLookup_insert_ne {α : Type} (l : List (String × α)) (k k' : String) (v : α)
    (h : k' ≠ k) : dictLookup (dictInsert l k v) k' = dictLookup l k' := by
  have hkk : ¬ (k = k') := fun hh => h hh.symm
  induction l with
  | nil => simp [dictInsert, dictLookup, hkk]
  | cons p rest ih =>
    by_cases hp : p.1 = k
    · subst hp
      simp [dictInsert, dictLookup, hkk]
    · simp [dictInsert, dictLookup, hp, ih]

theorem dictLookup_erase_self {α : Type} (l : List (String × α)) (k : String) :
    dictLookup (dictErase l k) k = none := by
  induction l with
  | nil => simp [dictErase, dictLookup]
  | cons p rest ih =>
    by_cases h : p.1 = k
    · simp [dictErase, h, ih]
    · simp [dictErase, dictLookup, h, ih]

theorem dictLookup_erase_ne {α : Type} (l : List (String × α)) (k k' : String)
    (h : k' ≠ k) : dictLookup (dictErase l k) k' = dictLookup l k' := by
  have hkk : ¬ (k = k') := fun hh => h hh.symm
  induction l with
  | nil => simp [dictErase]
  | cons p rest ih =>
    by_cases hp : p.1 = k
    · subst hp
      simp [dictErase, dictLookup, hkk, ih]
    · simp [dictErase, dictLookup, hp, ih]

/-- Appending a fresh key is what `dictInsert` does when the key is absent. -/
theorem dictInsert_of_lookup_none {α : Type} (l : List (String × α)) (k : String) (v : α)
    (h : dictLookup l k = none) : dictInsert l k v = l ++ [(k, v)] := by
  induction l with
  | nil => simp [dictInsert]
  | cons p rest ih =>
    by_cases hp : p.1 = k
    · simp [dictLookup, hp] at h
    · simp [dictLookup, hp] at h
      simp [dictInsert, hp, ih h]

/-- A persisted stream record, one row of `storage.get_all_lbry_files()`
(spec: rowid, sd_hash, stream_hash, file_name, download_directory, status,
saved_file flag, claim metadata, content fee, added_on timestamp,
fully_reflected flag; plus the name fields consumed by recovery).
`file_name` and `download_directory` are the reversible hex-encoded strings as
stored, `none` when absent; claim metadata and the content-fee transaction are
abstracted to numeric identifiers. -/
structure FileInfo where
  rowid : Nat
  sd_hash : String
  stream_hash : String
  stream_name : String
  suggested_file_name : String
  key : String
  file_name : Option String
  download_directory : Option String
  status : String
  saved_file : Bool
  claim : Option Nat
  content_fee : Option Nat
  added_on : Option Nat
  fully_reflected : Bool
  deriving DecidableEq

/-- The external collaborators of `StreamManager`, as oracles:
`is_blob_verified` and `get_stream_descriptor` are the blob manager
(`get_stream_descriptor` fails with an `InvalidStreamDescriptorError`, carried
as its message), `get_content_claim` is `storage.get_content_claim` (keyed by
stream hash), and `recover` models `StreamDescriptor.recover` together with
the `storage.get_blobs_for_stream` fetch it consumes: it yields the
reconstructed descriptor for a record, or nothing when the data is
insufficient. -/
structure Env where
  is_blob_verified : String → Bool
  get_stream_descriptor : String → Except String StreamDescriptor
  get_content_claim : String → Nat
  recover : FileInfo → Option StreamDescriptor

/-- The mutable state of a `StreamManager`: the live registry `_sources`
(keyed by `sd_hash`; the class also refers to it as `self.streams`), the
content-claim callback table of the storage collaborator (keyed by stream
hash, each callback capturing the stream it was installed for), the in-flight
reflector upload registry (keyed by `sd_hash`, each entry an `asyncio.Task`
modelled by a numeric task id), a counter supplying fresh task ids, and the
optional DHT node handle (abstracted to a name). -/
structure SMState where
  sources : List (String × ManagedStream)
  content_claim_callbacks : List (String × ManagedStream)
  running_reflector_uploads : List (String × Nat)
  next_task_id : Nat
  node : Option String
  deriving DecidableEq

/-- `StreamManager.add` (stream_manager.py lines 57-59).  The `super().add`
call is modelled from the spec: "registers the stream", i.e. the source is
stored in the live registry keyed by its manifest hash (`sd_hash`).  Line 59
then installs the content-claim callback keyed by the stream hash, the
callback being a closure capturing the stream. -/
def add (st : SMState) (source : ManagedStream) : SMState :=
  { st with
    sources := dictInsert st.sources source.sd_hash source,
    content_claim_callbacks :=
      dictInsert st.content_claim_callbacks source.stream_hash source }

/-- `_update_content_claim` (lines 61-63): fetch the claim info for the
stream's stream hash from storage, then
`self._sources.setdefault(stream.sd_hash, stream)` returns the registered
stream when the key is present (leaving the registry unchanged) and otherwise
inserts `stream` under `stream.sd_hash`; `set_claim` is applied to the object
`setdefault` returned, which the registry holds.  The result is the new state
together with the stream object the claim was applied to. -/
def update_content_claim (env : Env) (st : SMState) (stream : ManagedStream) :
    SMState × ManagedStream :=
  let claim_info := env.get_content_claim stream.stream_hash
  match dictLookup st.sources stream.sd_hash with
  | some s =>
      ({ st with sources := dictInsert st.sources stream.sd_hash (set_claim s claim_info) },
       set_claim s claim_info)
  | none =>
      ({ st with sources :=
          dictInsert st.sources stream.sd_hash (set_claim stream claim_info) },
       set_claim stream claim_info)

/-- `reflect_stream` (lines 191-203).  The server/port defaulting at lines
193-194 touches no manager state and is omitted.  If an upload for the
stream's `sd_hash` is already in flight, the existing task is returned and the
state is unchanged; otherwise a fresh upload task is created, registered under
the `sd_hash`, and returned. -/
def reflect_stream (st : SMState) (stream : ManagedStream) : Nat × SMState :=
  match dictLookup st.running_reflector_uploads stream.sd_hash with
  | some t => (t, st)
  | none =>
      (st.next_task_id,
       { st with
         running_reflector_uploads :=
           dictInsert st.running_reflector_uploads stream.sd_hash st.next_task_id,
         next_task_id := st.next_task_id + 1 })

/-- The done callback installed at lines 199-202: when the upload task
completes (with success, failure or cancellation), it pops the entry under its
stream's `sd_hash` from the in-flight registry if that key is present. -/
def upload_done (st : SMState) (sd_hash : String) : SMState :=
  if dictContains st.running_reflector_uploads sd_hash then
    { st with running_reflector_uploads :=
        dictErase st.running_reflector_uploads sd_hash }
  else st

/-- The externally observable calls `delete_stream` makes, in order. -/
inductive DeleteAction where
  | cancelUpload (task : Nat)
  | stopTasks (sd_hash : String)
  | removeFromSources (sd_hash : String)
  | deleteBlobs (blob_hashes : List String) (delete_from_db : Bool)
  | storageDelete (descriptor : StreamDescriptor)
  deriving DecidableEq

/-- Whether a `DeleteAction` is the blob-manager deletion call. -/
def isDeleteBlobs : DeleteAction → Bool
  | .deleteBlobs _ _ => true
  | _ => false

/-- `delete_stream` (lines 214-222): cancel an in-flight upload if any, stop
the stream's tasks, remove the stream from the live registry when present
(`del self.streams[...]`; the spec's live registry), then call
`blob_manager.delete_blobs` once with the manifest hash followed by the blob
hashes of the descriptor without its terminator entry and with
`delete_from_db=False`, and finally `storage.delete(stream.descriptor)`.
Returns the new state and the ordered trace of calls. -/
def delete_stream (st : SMState) (stream : ManagedStream) :
    SMState × List DeleteAction :=
  let t1 : List DeleteAction :=
    match dictLookup st.running_reflector_uploads stream.sd_hash with
    | some t => [.cancelUpload t]
    | none => []
  let t2 := t1 ++ [.stopTasks stream.sd_hash]
  let sources2 :=
    if dictContains st.sources stream.sd_hash then dictErase st.sources stream.sd_hash
    else st.sources
  let t3 :=
    if dictContains st.sources stream.sd_hash then t2 ++ [.removeFromSources stream.sd_hash]
    else t2
  let blob_hashes :=
    stream.sd_hash :: (stream.descriptor.blobs.dropLast.map BlobInfo.blob_hash)
  ({ st with sources := sources2 },
   t3 ++ [.deleteBlobs blob_hashes false, .storageDelete stream.descriptor])

/-- The delegated call of `stream_partial_content`: the stream's own
`stream_file(request, node)` routine, with the arguments it receives. -/
structure StreamFileCall where
  stream : ManagedStream
  request : Nat
  node : Option String
  deriving DecidableEq

/-- `stream_partial_content` (lines 407-408):
`self._sources[sd_hash].stream_file(request, self.node)`.  An absent key
raises `KeyError` (the not-found condition); a present key delegates to the
registered stream, passing the manager's node.  The state is returned
unchanged in both cases: the method only reads the registry. -/
def stream_partial_content (st : SMState) (request : Nat) (sd_hash : String) :
    Except PyErr StreamFileCall × SMState :=
  match dictLookup st.sources sd_hash with
  | none => (.error (.keyError sd_hash), st)
  | some s => (.ok { stream := s, request := request, node := st.node }, st)

/-- One entry appended to `to_restore` by `recover_streams` (line 78):
the reconstructed descriptor, the manifest blob handle (carried as its hash)
and the record's content fee. -/
structure RestoreEntry where
  descriptor : StreamDescriptor
  sd_hash : String
  content_fee : Option Nat
  deriving DecidableEq

/-- The inner loop of `recover_streams` (lines 65-86): one `recover_stream`
coroutine per record, gathered.  Each coroutine recovers a descriptor from the
record's data; when recovery yields nothing the coroutine returns without
appending (lines 76-78), otherwise it appends its restore entry.  The gather
is sequentialised in record order. -/
def recover_loop (env : Env) : List FileInfo → List RestoreEntry → List RestoreEntry
  | [], acc => acc
  | fi :: rest, acc =>
    match env.recover fi with
    | none => recover_loop env rest acc
    | some d => recover_loop env rest (acc ++ [⟨d, fi.sd_hash, fi.content_fee⟩])

/-- `recover_streams` (lines 65-89): the accumulated `to_restore` list, and
the argument of the `storage.recover_streams` call, which is made only when
`to_restore` is non-empty (line 88). -/
def recover_streams (env : Env) (file_infos : List FileInfo) :
    List RestoreEntry × Option (List RestoreEntry) :=
  let to_restore := recover_loop env file_infos []
  (to_restore, if to_restore.isEmpty then none else some to_restore)

/-- The value of a lower- or upper-case hexadecimal digit. -/
def hexVal (c : Char) : Option Nat :=
  if '0' ≤ c ∧ c ≤ '9' then some (c.toNat - '0'.toNat)
  else if 'a' ≤ c ∧ c ≤ 'f' then some (c.toNat - 'a'.toNat + 10)
  else if 'A' ≤ c ∧ c ≤ 'F' then some (c.toNat - 'A'.toNat + 10)
  else none

/-- `binascii.unhexlify` followed by `bytes.decode`, on a byte string modelled
as characters with code points below 256: two hex digits per byte.  Odd length
or a non-hex digit, which raise in the source, yield `none` here. -/
def unhexlify : List Char → Option (List Char)
  | [] => some []
  | [_] => none
  | a :: b :: rest =>
    match hexVal a, hexVal b, unhexlify rest with
    | some hi, some lo, some out => some (Char.ofNat (16 * hi + lo) :: out)
    | _, _, _ => none

/-- `path_or_none` (lines 26-29): a falsy argument (absent, or the empty
string) yields nothing; otherwise the hex-encoded string is decoded to the
stored path. -/
def path_or_none (p : Option String) : Option String :=
  match p with
  | none => none
  | some s => if s.isEmpty then none else (unhexlify s.data).map fun cs => String.mk cs

/-- Python truthiness of an optional string (`if file_name and ...`):
true exactly for a non-empty string. -/
def truthy : Option String → Bool
  | none => false
  | some s => !s.isEmpty

/-- `_load_stream` (lines 94-110) as a coroutine invoked with the eight
arguments its signature declares (rowid, sd_hash, file_name,
download_directory, status, claim, content_fee, added_on).  On an
`InvalidStreamDescriptorError` from `blob_manager.get_stream_descriptor` the
failure is logged and the coroutine returns without touching the registry
(lines 100-102).  On success a `ManagedStream` is constructed (lines 103-107),
but line 108 then reads the name `fully_reflected`, which is bound nowhere in
the function, so the coroutine raises `NameError` before `self.add` runs. -/
def load_stream (env : Env) (st : SMState) (_rowid : Nat) (sd_hash : String)
    (_file_name _download_directory : Option String) (_status : String)
    (_claim : Option Nat) (_content_fee : Option Nat) (_added_on : Option Nat) :
    Except PyErr SMState :=
  match env.get_stream_descriptor sd_hash with
  | .error _ => .ok st
  | .ok _descriptor => .error (.nameError "fully_reflected")

/-- `asyncio.gather` over a batch of `_load_stream` invocations (the intended
batch of line 143), sequentialised: every coroutine runs to completion in
order, and the first exception, if any, is what the gather raises — it does
not stop the remaining coroutines. -/
def load_streams (env : Env) : List FileInfo → SMState → SMState × Option PyErr
  | [], st => (st, none)
  | fi :: rest, st =>
    match load_stream env st fi.rowid fi.sd_hash (path_or_none fi.file_name)
        (path_or_none fi.download_directory) fi.status fi.claim fi.content_fee
        fi.added_on with
    | .ok st2 => load_streams env rest st2
    | .error e =>
      let r := load_streams env rest st
      (r.1, some e)

/-- One `(file_name, download_directory, sd_hash)` entry of the
`to_resume_saving` list (line 135). -/
structure ResumeEntry where
  file_name : String
  download_directory : String
  sd_hash : String
  deriving DecidableEq

/-- What `initialize_from_database` produced: the manager state, the argument
of the `storage.recover_streams` call when one was made, the payload of the
single gathered resume-saving task when one was created (line 149), and the
exception the method raised, if any. -/
structure InitResult where
  state : SMState
  recover_call : Option (List RestoreEntry)
  resume_task : Option (List ResumeEntry)
  error : Option PyErr
  deriving DecidableEq

/-- `initialize_from_database` (lines 112-153).  Records whose manifest blob
is unverified are queued for recovery and `recover_streams` runs on them
(lines 118-126); every record is kept in `to_start`.  The loop at lines
131-141 then computes each record's decoded paths and resume eligibility, and
calls `self._load_stream` with nine positional arguments
(`..., added_on, fully_reflected`) while `_load_stream` (line 94) declares
eight: in Python this raises `TypeError` at the call, before any task is
created, so with at least one record the method raises on its first loop
iteration and neither the stream-loading gather (line 143) nor the
resume-saving task (lines 147-153) is reached; the registry is left as it
was.  With no records the loop body never runs and the method returns with
nothing resumed. -/
def initialize_from_database (env : Env) (st : SMState) (records : List FileInfo) :
    InitResult :=
  let to_recover := records.filter fun r => !(env.is_blob_verified r.sd_hash)
  let recover_call :=
    if to_recover.isEmpty then none else (recover_streams env to_recover).2
  match records with
  | [] => { state := st, recover_call := recover_call, resume_task := none, error := none }
  | _ :: _ =>
      { state := st, recover_call := recover_call, resume_task := none,
        error := some .typeError }

/-- The eligibility test of lines 163-165: verified manifest blob, all blobs
locally complete, no upload already in flight, not marked fully reflected. -/
def eligible (env : Env) (st : SMState) (stream : ManagedStream) : Bool :=
  env.is_blob_verified stream.sd_hash && stream.blobs_completed &&
    !(dictContains st.running_reflector_uploads stream.sd_hash) &&
    !stream.fully_reflected

/-- The inner `while sd_hashes:` loop of `reflect_streams` (lines 161-171).
`sd_hashes.pop()` takes from the end of the Python list, so the loop walks the
reversed worklist; the caller passes it reversed and this function recurses
head first.  An eligible stream is enqueued via `reflect_stream` (which
registers its upload task); the batch holds the enqueued upload tasks, each
identified here by the `sd_hash` of its stream, the key the task is
registered under.  Whenever `len(batch) >= limit` the batch is awaited —
modelled by emitting the batch and running every gathered task's done
callback (`upload_done`) before the loop resumes — and a final non-empty
batch is awaited after the loop (lines 170-171).  The result is the list of
awaited batches, in order.  The registry lookup of line 162 cannot miss: the
worklist was filtered against the registry (line 159) and the loop never
modifies the registry; the `none` branch only totalises the match. -/
def reflect_loop (env : Env) (limit : Nat) :
    List String → List String → SMState → List (List String)
  | [], batch, _ => if batch.isEmpty then [] else [batch]
  | sd :: rest, batch, st =>
    match dictLookup st.sources sd with
    | none => reflect_loop env limit rest batch st
    | some stream =>
      let e := eligible env st stream
      let batch2 := if e then batch ++ [stream.sd_hash] else batch
      let st2 := if e then (reflect_stream st stream).2 else st
      if limit ≤ batch2.length then
        batch2 :: reflect_loop env limit rest [] (batch2.foldl upload_done st2)
      else
        reflect_loop env limit rest batch2 st2

/-- One cycle of the body of `reflect_streams` (lines 157-171), when
reflection is enabled and a reflector server is configured: storage supplies
the candidate hashes (`get_streams_to_re_reflect`), they are filtered to those
present in the live registry (line 159), and the filtered worklist is consumed
from its end by the batching loop.  `limit` is
`config.concurrent_reflector_uploads`. -/
def reflect_streams_cycle (env : Env) (limit : Nat) (st : SMState)
    (storage_hashes : List String) : List (List String) :=
  let sd_hashes := storage_hashes.filter fun sd => dictContains st.sources sd
  reflect_loop env limit sd_hashes.reverse [] st

/-- A concrete descriptor: one content blob plus the terminator entry. -/
def exDescriptor : StreamDescriptor :=
  { sd_hash := "sdA", stream_hash := "shA", blobs := [⟨"blobA"⟩, ⟨"term"⟩] }

/-- A concrete managed stream for `exDescriptor`. -/
def exStreamA : ManagedStream :=
  { sd_hash := "sdA", stream_hash := "shA", descriptor := exDescriptor,
    status := "running", blobs_completed := true, fully_reflected := false,
    claim := none }

/-- The state of a freshly constructed manager: empty registries. -/
def emptyState : SMState :=
  { sources := [], content_claim_callbacks := [], running_reflector_uploads := [],
    next_task_id := 0, node := none }

/-- A manager state with `exStreamA` registered. -/
def stateA : SMState := add emptyState exStreamA

/-- A concrete environment: every blob verified, descriptor loading always
fails with an `InvalidStreamDescriptorError`, constant claim info, and
recovery succeeding except for records with `sd_hash = "bad"`. -/
def exEnv : Env :=
  { is_blob_verified := fun _ => true,
    get_stream_descriptor := fun _ => Except.error "invalid stream descriptor",
    get_content_claim := fun _ => 7,
    recover := fun fi => if fi.sd_hash = "bad" then none else some exDescriptor }

/-- A concrete persisted record eligible for resume-saving: status `running`,
hex-encoded file name ("x.mp4") and download directory ("/dl"), not saved. -/
def exRecord : FileInfo :=
  { rowid := 1, sd_hash := "sdA", stream_hash := "shA", stream_name := "6e",
    suggested_file_name := "6e", key := "6b", file_name := some "782e6d7034",
    download_directory := some "2f646c", status := "running", saved_file := false,
    claim := none, content_fee := none, added_on := some 0, fully_reflected := false }

/-- A record whose recovery fails under `exEnv`. -/
def exRecordBad : FileInfo := { exRecord with sd_hash := "bad" }

/-- C1: the claim says every record with a verified manifest blob yields
exactly one registered stream with the `fully_reflected` flag copied; the code
instead raises: `initialize_from_database` passes nine positional arguments to
`_load_stream`, whose signature takes eight, so with any non-empty record list
the method raises `TypeError` on its first loop iteration and the registry is
left unchanged — no stream is registered at all. -/
theorem initialize_from_database_raises_type_error (env : Env) (st : SMState)
    (records : List FileInfo) (h : records ≠ []) :
    (initialize_from_database env st records).error = some PyErr.typeError ∧
    (initialize_from_database env st records).state.sources = st.sources := by
  cases records with
  | nil => exact absurd rfl h
  | cons r rest => exact ⟨rfl, rfl⟩

/-- C1 witness: the failure at the concrete verified record `exRecord`. -/
theorem initialize_from_database_raises_type_error_witness :
    ([exRecord] ≠ ([] : List FileInfo)) ∧
    ((initialize_from_database exEnv emptyState [exRecord]).error =
        some PyErr.typeError ∧
      (initialize_from_database exEnv emptyState [exRecord]).state.sources =
        emptyState.sources) :=
  ⟨by decide,
   initialize_from_database_raises_type_error exEnv emptyState [exRecord] (by decide)⟩

/-- A call to `reflect_stream` with no upload in flight returns the fresh task
counter as the task id. -/
theorem reflect_stream_fst_of_none (st : SMState) (s : ManagedStream)
    (h : dictLookup st.running_reflector_uploads s.sd_hash = none) :
    (reflect_stream st s).1 = st.next_task_id := by
  simp [reflect_stream, h]

/-- C2: at most one reflection upload is in flight per stream.  When an upload
for the stream's `sd_hash` is registered, `reflect_stream` returns that very
task and changes nothing.  When none is, the new task is registered under the
`sd_hash`, a second call returns the identical task leaving the state
unchanged, and once the task's done callback has removed its entry a further
call creates a fresh, different task. -/
theorem reflect_stream_single_flight (st : SMState) (s : ManagedStream) :
    (∀ t, dictLookup st.running_reflector_uploads s.sd_hash = some t →
      reflect_stream st s = (t, st)) ∧
    (dictLookup st.running_reflector_uploads s.sd_hash = none →
      dictLookup (reflect_stream st s).2.running_reflector_uploads s.sd_hash =
        some (reflect_stream st s).1 ∧
      reflect_stream (reflect_stream st s).2 s =
        ((reflect_stream st s).1, (reflect_stream st s).2) ∧
      dictLookup
        (upload_done (reflect_stream st s).2 s.sd_hash).running_reflector_uploads
        s.sd_hash = none ∧
      (reflect_stream (upload_done (reflect_stream st s).2 s.sd_hash) s).1 ≠
        (reflect_stream st s).1) := by
  refine ⟨fun t ht => ?_, fun h => ?_⟩
  · simp [reflect_stream, ht]
  · have h2 : dictLookup (reflect_stream st s).2.running_reflector_uploads s.sd_hash =
        some st.next_task_id := by
      simp [reflect_stream, h, dictLookup_insert_self]
    have h1 : (reflect_stream st s).1 = st.next_task_id := by simp [reflect_stream, h]
    have h3 : upload_done (reflect_stream st s).2 s.sd_hash =
        { (reflect_stream st s).2 with
          running_reflector_uploads :=
            dictErase (reflect_stream st s).2.running_reflector_uploads s.sd_hash } := by
      simp [upload_done, dictContains, h2]
    refine ⟨h1 ▸ h2, ?_, ?_, ?_⟩
    · simp [reflect_stream, h, dictLookup_insert_self]
    · rw [h3]
      exact dictLookup_erase_self _ _
    · have h4 : dictLookup
          (upload_done (reflect_stream st s).2 s.sd_hash).running_reflector_uploads
          s.sd_hash = none := by
        rw [h3]; exact dictLookup_erase_self _ _
      have h5 : (reflect_stream (upload_done (reflect_stream st s).2 s.sd_hash) s).1 =
          (upload_done (reflect_stream st s).2 s.sd_hash).next_task_id :=
        reflect_stream_fst_of_none _ s h4
      have h6 : (upload_done (reflect_stream st s).2 s.sd_hash).next_task_id =
          st.next_task_id + 1 := by
        rw [h3]; simp [reflect_stream, h]
      rw [h5, h6, h1]
      omega

/-- C2 witness: the fresh-task cycle at the concrete state `stateA`. -/
theorem reflect_stream_single_flight_witness :
    dictLookup (reflect_stream stateA exStreamA).2.running_reflector_uploads "sdA" =
      some (reflect_stream stateA exStreamA).1 ∧
    (reflect_stream (upload_done (reflect_stream stateA exStreamA).2 "sdA")
        exStreamA).1 ≠ (reflect_stream stateA exStreamA).1 := by
  have h := (reflect_stream_single_flight stateA exStreamA).2 (by decide)
  exact ⟨h.1, h.2.2.2⟩

/-- C3: deleting a registered stream removes it from the live registry before
any blob deletion happens, passes exactly the manifest hash followed by every
blob hash of the descriptor except the terminator entry to `delete_blobs`
exactly once with `delete_from_db = false`, and finally deletes the persisted
record via storage. -/
theorem delete_stream_spec (st : SMState) (s : ManagedStream)
    (h : dictContains st.sources s.sd_hash = true) :
    dictLookup (delete_stream st s).1.sources s.sd_hash = none ∧
    DeleteAction.removeFromSources s.sd_hash ∈
      ((delete_stream st s).2.takeWhile fun a => !(isDeleteBlobs a)) ∧
    (delete_stream st s).2.filter isDeleteBlobs =
      [DeleteAction.deleteBlobs
        (s.sd_hash :: s.descriptor.blobs.dropLast.map BlobInfo.blob_hash) false] ∧
    (delete_stream st s).2.getLast? = some (DeleteAction.storageDelete s.descriptor) := by
  have hsrc : (delete_stream st s).1.sources = dictErase st.sources s.sd_hash := by
    simp [delete_stream, h]
  cases hr : dictLookup st.running_reflector_uploads s.sd_hash with
  | none =>
      have htr : (delete_stream st s).2 =
          [DeleteAction.stopTasks s.sd_hash, DeleteAction.removeFromSources s.sd_hash,
           DeleteAction.deleteBlobs
             (s.sd_hash :: s.descriptor.blobs.dropLast.map BlobInfo.blob_hash) false,
           DeleteAction.storageDelete s.descriptor] := by
        simp [delete_stream, h, hr]
      refine ⟨hsrc ▸ dictLookup_erase_self _ _, ?_, ?_, ?_⟩ <;>
        rw [htr] <;> simp [isDeleteBlobs, List.takeWhile]
  | some t =>
      have htr : (delete_stream st s).2 =
          [DeleteAction.cancelUpload t, DeleteAction.stopTasks s.sd_hash,
           DeleteAction.removeFromSources s.sd_hash,
           DeleteAction.deleteBlobs
             (s.sd_hash :: s.descriptor.blobs.dropLast.map BlobInfo.blob_hash) false,
           DeleteAction.storageDelete s.descriptor] := by
        simp [delete_stream, h, hr]
      refine ⟨hsrc ▸ dictLookup_erase_self _ _, ?_, ?_, ?_⟩ <;>
        rw [htr] <;> simp [isDeleteBlobs, List.takeWhile]

/-- C3 witness: deleting `exStreamA` from `stateA`. -/
theorem delete_stream_spec_witness :
    dictContains stateA.sources "sdA" = true ∧
    (delete_stream stateA exStreamA).2.filter isDeleteBlobs =
      [DeleteAction.deleteBlobs ["sdA", "blobA"] false] := by
  have h := delete_stream_spec stateA exStreamA (by decide)
  exact ⟨by decide, h.2.2.1⟩

/-- `recover_loop` appends to its accumulator exactly the successfully
reconstructed entries, in record order. -/
theorem recover_loop_eq (env : Env) (l : List FileInfo) :
    ∀ acc, recover_loop env l acc = acc ++ l.filterMap fun r =>
      (env.recover r).map fun d => (⟨d, r.sd_hash, r.content_fee⟩ : RestoreEntry) := by
  induction l with
  | nil => intro acc; simp [recover_loop]
  | cons fi rest ih =>
    intro acc
    cases hr : env.recover fi with
    | none => simp [recover_loop, hr, ih]
    | some d => simp [recover_loop, hr, ih]

/-- `recover_loop` collects exactly the successfully reconstructed entries, in
record order. -/
theorem recover_loop_filterMap (env : Env) (l : List FileInfo) :
    recover_loop env l [] = l.filterMap fun r =>
      (env.recover r).map fun d => (⟨d, r.sd_hash, r.content_fee⟩ : RestoreEntry) := by
  simp [recover_loop_eq]

/-- C5: a record whose descriptor reconstruction yields no descriptor is
dropped from the restore set without any exception, leaving every other
record of the batch processed exactly as if the failing record were absent;
and the entries handed to the `storage.recover_streams` call are exactly the
successfully reconstructed ones (no call being made when there are none). -/
theorem recover_streams_drops_failures (env : Env) (fi : FileInfo)
    (pre post : List FileInfo) (h : env.recover fi = none) :
    recover_streams env (pre ++ fi :: post) = recover_streams env (pre ++ post) ∧
    ∀ infos : List FileInfo,
      (recover_streams env infos).1 = (infos.filterMap fun r =>
        (env.recover r).map fun d => (⟨d, r.sd_hash, r.content_fee⟩ : RestoreEntry)) ∧
      (recover_streams env infos).2 =
        if (recover_streams env infos).1.isEmpty then none
        else some (recover_streams env infos).1 := by
  constructor
  · simp [recover_streams, recover_loop_filterMap, List.filterMap_append,
      List.filterMap_cons, h]
  · intro infos
    exact ⟨recover_loop_filterMap env infos, rfl⟩

/-- C5 witness: under `exEnv` the record "bad" is dropped while `exRecord` on
both sides of it is still restored. -/
theorem recover_streams_drops_failures_witness :
    exEnv.recover exRecordBad = none ∧
    recover_streams exEnv ([exRecord] ++ exRecordBad :: [exRecord]) =
      recover_streams exEnv ([exRecord] ++ [exRecord]) ∧
    (recover_streams exEnv [exRecord, exRecordBad, exRecord]).1 =
      [⟨exDescriptor, "sdA", none⟩, ⟨exDescriptor, "sdA", none⟩] := by
  have h := recover_streams_drops_failures exEnv exRecordBad [exRecord] [exRecord]
    (by decide)
  exact ⟨by decide, h.1, by decide⟩

/-- C7: a record whose descriptor load fails with an
`InvalidStreamDescriptorError` is skipped: `_load_stream` returns normally
without touching the registry, and a gathered batch containing that record
behaves exactly as the batch without it, so the other records still load. -/
theorem load_stream_invalid_descriptor_skipped (env : Env) (st : SMState)
    (fi : FileInfo) (e : String)
    (h : env.get_stream_descriptor fi.sd_hash = Except.error e) :
    load_stream env st fi.rowid fi.sd_hash (path_or_none fi.file_name)
      (path_or_none fi.download_directory) fi.status fi.claim fi.content_fee
      fi.added_on = Except.ok st ∧
    ∀ rest, load_streams env (fi :: rest) st = load_streams env rest st := by
  constructor
  · simp [load_stream, h]
  · intro rest
    simp [load_streams, load_stream, h]

/-- C7 witness: the skip at the concrete record `exRecord` under `exEnv`. -/
theorem load_stream_invalid_descriptor_skipped_witness :
    load_stream exEnv emptyState exRecord.rowid exRecord.sd_hash
      (path_or_none exRecord.file_name) (path_or_none exRecord.download_directory)
      exRecord.status exRecord.claim exRecord.content_fee exRecord.added_on =
      Except.ok emptyState ∧
    load_streams exEnv [exRecord, exRecordBad] emptyState =
      load_streams exEnv [exRecordBad] emptyState := by
  have h := load_stream_invalid_descriptor_skipped exEnv emptyState exRecord
    "invalid stream descriptor" rfl
  exact ⟨h.1, h.2 [exRecordBad]⟩

/-- C8: the claim says the resume-eligible records are queued and started as
one gathered task under a single cancellable handle; the code instead raises
`TypeError` from the nine-argument `_load_stream` call on the first loop
iteration, before the resume-saving task of line 149 is ever created, so with
any non-empty record list no resume task exists. -/
theorem initialize_from_database_never_resumes (env : Env) (st : SMState)
    (records : List FileInfo) (h : records ≠ []) :
    (initialize_from_database env st records).resume_task = none ∧
    (initialize_from_database env st records).error = some PyErr.typeError := by
  cases records with
  | nil => exact absurd rfl h
  | cons r rest => exact ⟨rfl, rfl⟩

/-- C8 witness: the concrete record `exRecord` meets every queueing condition
of line 134 (truthy decoded paths, not saved, status `running`), yet no
resume task is created. -/
theorem initialize_from_database_never_resumes_witness :
    (truthy (path_or_none exRecord.file_name) = true ∧
      truthy (path_or_none exRecord.download_directory) = true ∧
      exRecord.saved_file = false ∧ exRecord.status = "running") ∧
    ((initialize_from_database exEnv emptyState [exRecord]).resume_task = none ∧
      (initialize_from_database exEnv emptyState [exRecord]).error =
        some PyErr.typeError) :=
  ⟨by decide,
   initialize_from_database_never_resumes exEnv emptyState [exRecord] (by decide)⟩

/-- C9: `stream_partial_content` on an `sd_hash` absent from the live registry
fails with the `KeyError` not-found condition and leaves the whole state
unchanged; on a present `sd_hash` it delegates to that stream's own
`stream_file` routine, passing the manager's node, again leaving the state
unchanged. -/
theorem stream_partial_content_lookup (st : SMState) (request : Nat)
    (sd_hash : String) :
    (dictLookup st.sources sd_hash = none →
      stream_partial_content st request sd_hash =
        (Except.error (PyErr.keyError sd_hash), st)) ∧
    (∀ s, dictLookup st.sources sd_hash = some s →
      stream_partial_content st request sd_hash =
        (Except.ok { stream := s, request := request, node := st.node }, st)) := by
  refine ⟨fun h => ?_, fun s h => ?_⟩
  · simp [stream_partial_content, h]
  · simp [stream_partial_content, h]

/-- C9 witness: the not-found case at "missing" and the delegation case at
"sdA" in the concrete state `stateA`. -/
theorem stream_partial_content_lookup_witness :
    stream_partial_content stateA 5 "missing" =
      (Except.error (PyErr.keyError "missing"), stateA) ∧
    stream_partial_content stateA 5 "sdA" =
      (Except.ok { stream := exStreamA, request := 5, node := none }, stateA) := by
  have h := stream_partial_content_lookup stateA 5 "missing"
  have h2 := stream_partial_content_lookup stateA 5 "sdA"
  exact ⟨h.1 (by decide), h2.2 exStreamA (by decide)⟩

/-- C10: when the content-claim callback fires for a stream whose `sd_hash`
is absent from the registry, `setdefault` re-inserts that stream (appending
it) and the claim is applied to it; when the `sd_hash` is present, the
registry keeps exactly the same keys and the claim is applied to the stream
currently registered under that hash, not to the callback's captured stream. -/
theorem update_content_claim_setdefault (env : Env) (st : SMState)
    (stream : ManagedStream) :
    (dictLookup st.sources stream.sd_hash = none →
      (update_content_claim env st stream).1.sources =
        st.sources ++ [(stream.sd_hash,
          set_claim stream (env.get_content_claim stream.stream_hash))] ∧
      (update_content_claim env st stream).2 =
        set_claim stream (env.get_content_claim stream.stream_hash)) ∧
    (∀ s, dictLookup st.sources stream.sd_hash = some s →
      (∀ k, dictContains (update_content_claim env st stream).1.sources k =
        dictContains st.sources k) ∧
      (update_content_claim env st stream).2 =
        set_claim s (env.get_content_claim stream.stream_hash)) := by
  refine ⟨fun h => ?_, fun s h => ?_⟩
  · constructor
    · simp only [update_content_claim, h]
      exact dictInsert_of_lookup_none _ _ _ h
    · simp [update_content_claim, h]
  · constructor
    · intro k
      simp only [update_content_claim, h]
      by_cases hk : k = stream.sd_hash
      · subst hk
        simp [dictContains, dictLookup_insert_self, h]
      · simp [dictContains, dictLookup_insert_ne _ _ _ _ hk]
    · simp [update_content_claim, h]

/-- C10 witness: the callback for the deleted stream `exStreamA` re-inserts it
into the emptied registry; fired again with it present, the keys stay put. -/
theorem update_content_claim_setdefault_witness :
    (update_content_claim exEnv emptyState exStreamA).1.sources =
      [("sdA", set_claim exStreamA 7)] ∧
    dictContains
      (update_content_claim exEnv stateA exStreamA).1.sources "sdA" =
      dictContains stateA.sources "sdA" := by
  have h := (update_content_claim_setdefault exEnv emptyState exStreamA).1 (by decide)
  have h2 := (update_content_claim_setdefault exEnv stateA exStreamA).2 exStreamA
    (by decide)
  exact ⟨h.1, h2.1 "sdA"⟩

/-- C6 counterexample: after `add` and then `delete_stream`, the stream is
gone from the live registry but its callback entry under its stream hash is
still in the callback table — `delete_stream` (lines 214-222) never touches
`storage.content_claim_callbacks`, refuting the claim that it unregisters the
entry. -/
theorem delete_stream_keeps_callback_counterexample :
    dictLookup (delete_stream stateA exStreamA).1.content_claim_callbacks "shA" =
      some exStreamA ∧
    dictLookup (delete_stream stateA exStreamA).1.sources "sdA" = none := by
  decide

/-- C6 (amended): adding a stream installs one callback entry keyed by that
stream's stream hash (other keys untouched), but removing a stream via
`delete_stream` does not unregister it — the callback table is left exactly
as it was. -/
theorem add_installs_callback_delete_keeps_it (st : SMState) (s : ManagedStream) :
    dictLookup (add st s).content_claim_callbacks s.stream_hash = some s ∧
    (∀ k, k ≠ s.stream_hash →
      dictLookup (add st s).content_claim_callbacks k =
        dictLookup st.content_claim_callbacks k) ∧
    (delete_stream st s).1.content_claim_callbacks = st.content_claim_callbacks := by
  exact ⟨dictLookup_insert_self _ _ _,
    fun k hk => dictLookup_insert_ne _ _ _ _ hk, rfl⟩

/-- C6 witness: the amended behaviour at the concrete stream `exStreamA`. -/
theorem add_installs_callback_delete_keeps_it_witness :
    dictLookup (add emptyState exStreamA).content_claim_callbacks "shA" =
      some exStreamA ∧
    dictLookup (add emptyState exStreamA).content_claim_callbacks "other" =
      dictLookup emptyState.content_claim_callbacks "other" ∧
    (delete_stream stateA exStreamA).1.content_claim_callbacks =
      stateA.content_claim_callbacks := by
  have h := add_installs_callback_delete_keeps_it emptyState exStreamA
  have h2 := add_installs_callback_delete_keeps_it stateA exStreamA
  exact ⟨h.1, h.2.1 "other" (by decide), h2.2.2⟩

/-- `reflect_stream` never touches the live registry. -/
theorem reflect_stream_sources (st : SMState) (s : ManagedStream) :
    ((reflect_stream st s).2).sources = st.sources := by
  cases h : dictLookup st.running_reflector_uploads s.sd_hash <;>
    simp [reflect_stream, h]

/-- An upload's done callback never touches the live registry. -/
theorem upload_done_sources (st : SMState) (sd : String) :
    (upload_done st sd).sources = st.sources := by
  unfold upload_done
  split <;> rfl

/-- A whole batch of done callbacks never touches the live registry. -/
theorem foldl_upload_done_sources (batch : List String) :
    ∀ st : SMState, (batch.foldl upload_done st).sources = st.sources := by
  induction batch with
  | nil => intro st; rfl
  | cons b rest ih => intro st; rw [List.foldl_cons, ih, upload_done_sources]

/-- Insertion preserves key presence. -/
theorem dictContains_insert_mono {α : Type} (l : List (String × α)) (k k' : String)
    (v : α) (h : dictContains l k' = true) :
    dictContains (dictInsert l k v) k' = true := by
  by_cases hk : k' = k
  · subst hk; simp [dictContains, dictLookup_insert_self]
  · rwa [dictContains, dictLookup_insert_ne _ _ _ _ hk]

/-- `reflect_stream` only ever adds to the in-flight registry. -/
theorem reflect_stream_contains_mono (st : SMState) (s : ManagedStream) (k : String)
    (h : dictContains st.running_reflector_uploads k = true) :
    dictContains ((reflect_stream st s).2).running_reflector_uploads k = true := by
  cases hr : dictLookup st.running_reflector_uploads s.sd_hash with
  | some t => simpa [reflect_stream, hr] using h
  | none =>
    simp only [reflect_stream, hr]
    exact dictContains_insert_mono _ _ _ _ h

/-- A done callback only removes its own stream's entry. -/
theorem upload_done_contains_ne (st : SMState) (sd k : String) (hk : k ≠ sd) :
    dictContains (upload_done st sd).running_reflector_uploads k =
      dictContains st.running_reflector_uploads k := by
  unfold upload_done
  split
  · simp [dictContains, dictLookup_erase_ne _ _ _ hk]
  · rfl

/-- A batch of done callbacks leaves entries outside the batch alone. -/
theorem foldl_upload_done_contains (batch : List String) :
    ∀ (st : SMState) (k : String), k ∉ batch →
      dictContains (batch.foldl upload_done st).running_reflector_uploads k =
        dictContains st.running_reflector_uploads k := by
  induction batch with
  | nil => intro st k _; rfl
  | cons b rest ih =>
    intro st k hk
    rw [List.foldl_cons, ih _ k (fun hm => hk (List.mem_cons_of_mem _ hm)),
      upload_done_contains_ne _ _ _
        (fun he => hk (by rw [he]; exact List.mem_cons_self _ _))]

/-- What C4 asserts of every enqueued hash, relative to the state at the start
of the cycle: the hash is registered in the live registry, its manifest blob
is verified, all blobs are locally complete, it is not marked fully reflected,
and no upload for it was already in flight. -/
def enqueueOk (env : Env) (st : SMState) (sd : String) : Prop :=
  (∃ s, dictLookup st.sources sd = some s ∧ env.is_blob_verified sd = true ∧
    s.blobs_completed = true ∧ s.fully_reflected = false) ∧
  dictContains st.running_reflector_uploads sd = false

/-- Unfolding `reflect_loop` when the worklist head misses the registry. -/
theorem reflect_loop_cons_none (env : Env) (limit : Nat) (sd : String)
    (rest batch : List String) (cur : SMState)
    (h : dictLookup cur.sources sd = none) :
    reflect_loop env limit (sd :: rest) batch cur =
      reflect_loop env limit rest batch cur := by
  rw [reflect_loop, h]

/-- Unfolding `reflect_loop` when the worklist head is registered but not
eligible. -/
theorem reflect_loop_cons_not_eligible (env : Env) (limit : Nat) (sd : String)
    (rest batch : List String) (cur : SMState) (s : ManagedStream)
    (h : dictLookup cur.sources sd = some s) (he : eligible env cur s = false)
    (hlen : batch.length < limit) :
    reflect_loop env limit (sd :: rest) batch cur =
      reflect_loop env limit rest batch cur := by
  rw [reflect_loop, h]
  simp only [he, Bool.false_eq_true, if_false]
  rw [if_neg (by omega)]

/-- Unfolding `reflect_loop` when the worklist head is registered and
eligible. -/
theorem reflect_loop_cons_eligible (env : Env) (limit : Nat) (sd : String)
    (rest batch : List String) (cur : SMState) (s : ManagedStream)
    (h : dictLookup cur.sources sd = some s) (he : eligible env cur s = true) :
    reflect_loop env limit (sd :: rest) batch cur =
      if limit ≤ (batch ++ [s.sd_hash]).length then
        (batch ++ [s.sd_hash]) ::
          reflect_loop env limit rest []
            ((batch ++ [s.sd_hash]).foldl upload_done (reflect_stream cur s).2)
      else reflect_loop env limit rest (batch ++ [s.sd_hash]) (reflect_stream cur s).2 := by
  rw [reflect_loop, h]
  simp only [he, if_true]

/-- The batching invariant of the reflection cycle: if the loop is entered
with a registry equal to the cycle's initial one, an in-flight registry still
containing every initially in-flight key, and a partial batch below the limit
all of whose members were eligible at their enqueue time, then every batch it
emits respects the limit and contains only hashes that were eligible relative
to the initial state. -/
theorem reflect_loop_batches (env : Env) (limit : Nat) (st : SMState)
    (hl : 1 ≤ limit)
    (hWF : ∀ k s, dictLookup st.sources k = some s → s.sd_hash = k) :
    ∀ (work batch : List String) (cur : SMState),
      cur.sources = st.sources →
      (∀ k, dictContains st.running_reflector_uploads k = true →
        dictContains cur.running_reflector_uploads k = true) →
      batch.length < limit →
      (∀ sd ∈ batch, enqueueOk env st sd) →
      ∀ b ∈ reflect_loop env limit work batch cur,
        b.length ≤ limit ∧ ∀ sd ∈ b, enqueueOk env st sd := by
  intro work
  induction work with
  | nil =>
    intro batch cur _ _ hlen hmem b hb
    by_cases hbe : batch.isEmpty
    · simp [reflect_loop, hbe] at hb
    · simp [reflect_loop, hbe] at hb
      subst hb
      exact ⟨Nat.le_of_lt hlen, hmem⟩
  | cons sd rest ih =>
    intro batch cur hsrc hrun hlen hmem b hb
    cases hlk : dictLookup cur.sources sd with
    | none =>
      rw [reflect_loop_cons_none env limit sd rest batch cur hlk] at hb
      exact ih batch cur hsrc hrun hlen hmem b hb
    | some s =>
      cases he : eligible env cur s with
      | false =>
        rw [reflect_loop_cons_not_eligible env limit sd rest batch cur s hlk he hlen]
          at hb
        exact ih batch cur hsrc hrun hlen hmem b hb
      | true =>
        have hlk2 : dictLookup st.sources sd = some s := hsrc ▸ hlk
        have hkey : s.sd_hash = sd := hWF sd s hlk2
        have he2 := he
        simp only [eligible, Bool.and_eq_true, Bool.not_eq_true'] at he2
        obtain ⟨⟨⟨hver, hcomp⟩, hcur⟩, hfull⟩ := he2
        have hnotrun : dictContains st.running_reflector_uploads s.sd_hash = false := by
          cases hsr : dictContains st.running_reflector_uploads s.sd_hash with
          | false => rfl
          | true => rw [hrun s.sd_hash hsr] at hcur; cases hcur
        have hnew : enqueueOk env st s.sd_hash :=
          ⟨⟨s, hkey ▸ hlk2, hkey ▸ hver, hcomp, hfull⟩, hnotrun⟩
        have hall : ∀ x ∈ batch ++ [s.sd_hash], enqueueOk env st x := by
          intro x hx
          rcases List.mem_append.mp hx with hx | hx
          · exact hmem x hx
          · rw [List.mem_singleton.mp hx]; exact hnew
        rw [reflect_loop_cons_eligible env limit sd rest batch cur s hlk he] at hb
        by_cases hflush : limit ≤ (batch ++ [s.sd_hash]).length
        · rw [if_pos hflush] at hb
          rcases List.mem_cons.mp hb with hb | hb
          · subst hb
            refine ⟨by simp; omega, hall⟩
          · refine ih [] _ ?_ ?_ (by simpa using hl)
              (fun x hx => absurd hx (List.not_mem_nil x)) b hb
            · rw [foldl_upload_done_sources, reflect_stream_sources, hsrc]
            · intro k hk
              have hknot : k ∉ batch ++ [s.sd_hash] := by
                intro hkin
                have := (hall k hkin).2
                rw [hk] at this
                cases this
              rw [foldl_upload_done_contains _ _ _ hknot]
              exact reflect_stream_contains_mono _ _ _ (hrun k hk)
        · rw [if_neg hflush] at hb
          refine ih (batch ++ [s.sd_hash]) _ ?_ ?_ (by simp at hflush ⊢; omega) hall b hb
          · rw [reflect_stream_sources, hsrc]
          · intro k hk
            exact reflect_stream_contains_mono _ _ _ (hrun k hk)

/-- Lookup in a one-entry table determines key and value. -/
theorem dictLookup_single {α : Type} (k0 : String) (v : α) (k : String) (v2 : α)
    (h : dictLookup [(k0, v)] k = some v2) : k0 = k ∧ v = v2 := by
  simp only [dictLookup] at h
  split at h
  · next hk => exact ⟨hk, Option.some.inj h⟩
  · next => cases h

/-- C4 counterexample: with the concurrency limit configured as 0 the cycle
still awaits a batch holding one upload, so a batch exceeds the configured
limit, refuting the claim as stated. -/
theorem reflect_streams_cycle_zero_limit_counterexample :
    reflect_streams_cycle exEnv 0 stateA ["sdA"] = [["sdA"]] ∧
    ¬ (∀ b ∈ reflect_streams_cycle exEnv 0 stateA ["sdA"], b.length ≤ 0) := by
  decide

/-- C4 (amended): when the configured concurrency limit is at least one, every
batch the reflection cycle awaits has size at most the limit and each batch is
awaited before the loop resumes; and only eligible streams are enqueued —
present in the live registry, manifest blob verified, all blobs complete, not
marked fully reflected, and with no upload already in flight when the cycle
started. -/
theorem reflect_streams_cycle_bounded (env : Env) (limit : Nat) (st : SMState)
    (storage_hashes : List String) (hl : 1 ≤ limit)
    (hWF : ∀ k s, dictLookup st.sources k = some s → s.sd_hash = k) :
    ∀ b ∈ reflect_streams_cycle env limit st storage_hashes,
      b.length ≤ limit ∧ ∀ sd ∈ b, enqueueOk env st sd := by
  intro b hb
  simp only [reflect_streams_cycle] at hb
  exact reflect_loop_batches env limit st hl hWF _ [] st rfl (fun _ hk => hk)
    (by simpa using hl) (fun x hx => absurd hx (List.not_mem_nil x)) b hb

/-- C4 witness: the amended bound at limit 1 on the concrete state `stateA`. -/
theorem reflect_streams_cycle_bounded_witness :
    ("sdA" :: []).length ≤ 1 ∧ enqueueOk exEnv stateA "sdA" := by
  have hWF : ∀ k s, dictLookup stateA.sources k = some s → s.sd_hash = k := by
    intro k s h
    obtain ⟨hk, hv⟩ := dictLookup_single "sdA" exStreamA k s h
    rw [← hv, ← hk]
    rfl
  have h := reflect_streams_cycle_bounded exEnv 1 stateA ["sdA"] (le_refl 1) hWF
    ("sdA" :: []) (by decide)
  exact ⟨h.1, h.2 "sdA" (by decide)⟩

end Lbry
